import Mathlib

/-!
Verification development for the Desktop DeepZoom Image converter
(`converter_v7.py` and `converter_v8.py`).

The repository is a tkinter desktop utility that batch-converts images to
JPEG and to DeepZoom (`.dzi`) tile pyramids.  This file gives a shallow
embedding of the pipeline components the specification talks about:

* the path classifier `_is_unc`,
* the worker-count selector `_auto_workers` (both versions),
* the format normalizer `_ensure_rgb`,
* the name sanitizer used inside `save_jpeg.worker`,
* the batch tallies and progress updates of `save_jpeg.worker`,
  `create_deepzoom.run_parallel` (v7) and `create_deepzoom.worker` (v8).

External collaborators (the filesystem, `os.cpu_count`, PIL decode/encode
success, the DeepZoom backend) are modelled as an explicit environment of
oracles; the embedded functions consume the environment exactly where the
Python code calls the corresponding library function.
-/

/-- Environment of external collaborators, as consulted by the Python code:
`os.path.exists`, whether PIL decode+normalize+`im.save` succeeds for a
source file, whether `ImageCreator.create` succeeds for a source file,
`os.path.abspath` (`none` models the call raising), `os.cpu_count()`
(`none` models it returning `None`), and the module-level `HAS_DEEPZOOM`
flag set by the `import deepzoom` attempt. -/
structure Env where
  fileExists : String → Bool
  jpegSaveOk : String → Bool
  dzCreateOk : String → Bool
  abspath : String → Option String
  cpuCount : Option Nat
  hasDeepzoom : Bool

/-- Models Python `s.startswith(pre)`: `pre`'s characters are a prefix of
`s`'s. -/
def pyStartsWith (s pre : String) : Bool :=
  pre.data.isPrefixOf s.data

/-- Embeds `_is_unc` (identical in v7 and v8):
`try: return os.path.abspath(p).startswith("\\\\") except: return False`.
A failing `abspath` is `none` and yields `false`. -/
def _is_unc (env : Env) (p : String) : Bool :=
  match env.abspath p with
  | some a => pyStartsWith a "\\\\"
  | none => false

/-- Embeds `_auto_workers` of `converter_v7.py`:
empty selection gives 1; any UNC input/output gives 1; otherwise
`w = max(1, cores // 2); w = min(w, len(files))` with
`cores = os.cpu_count() or 4`. -/
def _auto_workers (env : Env) (files : List String) (out_dir : String) : Nat :=
  if files.isEmpty then 1
  else if _is_unc env out_dir || files.any (fun f => _is_unc env f) then 1
  else min (max 1 (env.cpuCount.getD 4 / 2)) files.length

/-- Embeds `_auto_workers` of `converter_v8.py`:
same guards, otherwise `max(1, min(len(files), cores // 2))`. -/
def _auto_workers_v8 (env : Env) (files : List String) (out_dir : String) : Nat :=
  if files.isEmpty then 1
  else if _is_unc env out_dir || files.any (fun f => _is_unc env f) then 1
  else max 1 (min files.length (env.cpuCount.getD 4 / 2))

/-- Per-file outcome of the JPEG loop body in `save_jpeg.worker`
(v7 lines 150-186, v8 lines 137-158): a missing source is logged as
skipped but increments `errors`; any exception from `Image.open` /
`_ensure_rgb` / `im.save` increments `errors`; success increments
`converted`. -/
inductive JpegOutcome
  | converted
  | loggedSkippedMissing
  | loggedError
deriving DecidableEq, Repr

/-- One iteration of `save_jpeg.worker`'s loop on source file `src`. -/
def jpegOutcome (env : Env) (src : String) : JpegOutcome :=
  if !env.fileExists src then JpegOutcome.loggedSkippedMissing
  else if env.jpegSaveOk src then JpegOutcome.converted
  else JpegOutcome.loggedError

/-- The `i` values scheduled by `root.after(0, ...)` onto `progress_var`,
one per processed file, in loop order: `enumerate(input_files, 1)` yields
`i = 1, 2, ..., n`. -/
def progressUpdates (n : Nat) : List Nat :=
  (List.range n).map (fun i => i + 1)

/-- Final tally and progress trace of `save_jpeg.worker` (the counting
logic is identical in v7 and v8).  `fileJobWorkers` is the `max_workers`
of the pool the per-file work runs in: `ThreadPoolExecutor(max_workers=1)`
in both versions, and `_auto_workers` is never consulted. -/
structure JpegSummary where
  converted : Nat
  errors : Nat
  progressTrace : List Nat
  fileJobWorkers : Nat
deriving DecidableEq, Repr

/-- Embeds the whole run of `save_jpeg.worker` over the submitted file
list: per file exactly one of `converted`/`errors` is incremented, and
`progress_var` is set to `i` after file `i`. -/
def save_jpeg_worker (env : Env) (files : List String) : JpegSummary :=
  { converted := files.countP (fun src => jpegOutcome env src == JpegOutcome.converted)
  , errors := files.countP (fun src =>
      jpegOutcome env src == JpegOutcome.loggedSkippedMissing
        || jpegOutcome env src == JpegOutcome.loggedError)
  , progressTrace := progressUpdates files.length
  , fileJobWorkers := 1 }

/-- Per-job outcome of v7's `create_deepzoom.run_parallel` job:
`_dz_convert_one` returns `("skip", ...)` when the source does not exist,
`("ok", ...)` on success, and the wrapper returns `("err", ...)` when
`creator.create` (or creator construction) raises. -/
inductive DzOutcome
  | ok
  | skip
  | err
deriving DecidableEq, Repr

/-- One job of v7's `create_deepzoom.run_parallel`. -/
def dzOutcome (env : Env) (src : String) : DzOutcome :=
  if !env.fileExists src then DzOutcome.skip
  else if env.dzCreateOk src then DzOutcome.ok
  else DzOutcome.err

/-- Tally of v7's `create_deepzoom.run_parallel`: three distinct counters
plus the `done_count` values pushed to `progress_var` as futures
complete. -/
structure DzTally where
  created : Nat
  skipped : Nat
  errors : Nat
  progressTrace : List Nat
deriving DecidableEq, Repr

/-- Embeds the aggregation loop of v7's `run_parallel` over the futures'
completion order `order` (a permutation of the submitted files;
`as_completed` yields results in arbitrary order).  Each completed job
increments `done_count` by one and exactly one of the three counters. -/
def run_parallel_tally (env : Env) (order : List String) : DzTally :=
  { created := order.countP (fun src => dzOutcome env src == DzOutcome.ok)
  , skipped := order.countP (fun src => dzOutcome env src == DzOutcome.skip)
  , errors := order.countP (fun src => dzOutcome env src == DzOutcome.err)
  , progressTrace := progressUpdates order.length }

/-- The tkinter progress pair: `progress_var` and `progress_max`. -/
structure ProgressState where
  progressVar : Nat
  progressMax : Nat
deriving DecidableEq, Repr

/-- Observable effect of one call to v7's `create_deepzoom` button
handler: the final progress state, how many per-file jobs were submitted,
whether the capability-missing dialog was shown, the resulting tally (if
a run happened), and the `max_workers` of the pool that executes the
per-file jobs (the inner `ThreadPoolExecutor(max_workers=workers)`). -/
structure DzInvocation where
  finalState : ProgressState
  jobsRun : Nat
  capabilityErrorShown : Bool
  tally : Option DzTally
  fileJobWorkers : Option Nat
deriving DecidableEq, Repr

/-- Embeds v7's `create_deepzoom` (lines 230-298): bail out showing the
capability dialog when `HAS_DEEPZOOM` is false, bail out on missing
selection, otherwise set `progress_max` to the total, reset
`progress_var`, compute `workers = _auto_workers(...)` and run
`run_parallel`, whose progress updates end at the total. -/
def create_deepzoom (env : Env) (files : List String) (out_dir : String)
    (st : ProgressState) : DzInvocation :=
  if !env.hasDeepzoom then
    { finalState := st, jobsRun := 0, capabilityErrorShown := true
    , tally := none, fileJobWorkers := none }
  else if files.isEmpty || out_dir = "" then
    { finalState := st, jobsRun := 0, capabilityErrorShown := false
    , tally := none, fileJobWorkers := none }
  else
    let workers := _auto_workers env files out_dir
    { finalState := { progressVar := files.length, progressMax := files.length }
    , jobsRun := files.length
    , capabilityErrorShown := false
    , tally := some (run_parallel_tally env files)
    , fileJobWorkers := some workers }

/-- Tally of v8's `create_deepzoom.worker`: only a `success` counter
(`_dz_convert_one` in v8 has no existence check; any exception is printed
and not counted), plus the progress updates. -/
structure DzTallyV8 where
  success : Nat
  progressTrace : List Nat
deriving DecidableEq, Repr

/-- Embeds v8's `create_deepzoom` (lines 198-231): same two guards, then
a single shared `creator` and a sequential `for` loop over the files runs
inside `ThreadPoolExecutor(max_workers=1)`; `_auto_workers` is never
called, so the per-file jobs execute on one worker slot. -/
def create_deepzoom_v8 (env : Env) (files : List String) (out_dir : String)
    (st : ProgressState) : ProgressState × Nat × Bool × Option DzTallyV8 × Option Nat :=
  if !env.hasDeepzoom then
    (st, 0, true, none, none)
  else if files.isEmpty || out_dir = "" then
    (st, 0, false, none, none)
  else
    ( { progressVar := files.length, progressMax := files.length }
    , files.length
    , false
    , some { success := files.countP (fun src => env.dzCreateOk src)
           , progressTrace := progressUpdates files.length }
    , some 1 )

/-- Models `os.path.basename` for the paths this program handles: the
text after the last path separator.  `ntpath.basename` splits on both
`\` and `/` (after removing a drive prefix, which plain file-picker paths
here carry before a separator anyway); `posixpath.basename` splits on
`/` only, and the selected files contain no bare backslash names on
POSIX. -/
def basename (p : String) : String :=
  String.mk ((p.data.reverse.takeWhile (fun c => !(c == '/' || c == '\\'))).reverse)

/-- Models `os.path.splitext(s)[0]` on a separator-free string (CPython
`genericpath._splitext` with `sepIndex = -1`): split at the last dot,
unless every character before that dot is itself a dot (leading-dot
names such as `.bashrc` keep their dot). -/
def splitext_stem (s : String) : String :=
  let l := s.data
  if l.contains '.' then
    let i := l.length - 1 - l.reverse.indexOf '.'
    let pre := l.take i
    if pre.all (fun c => c == '.') then s else String.mk pre
  else s

/-- Embeds `_basename_no_ext`:
`os.path.splitext(os.path.basename(path))[0]`. -/
def _basename_no_ext (path : String) : String :=
  splitext_stem (basename path)

/-- Models Python `str.rstrip(cut)`: remove trailing characters drawn
from `cut`. -/
def pyRstrip (cut : List Char) (s : String) : String :=
  String.mk ((s.data.reverse.dropWhile (fun c => cut.contains c)).reverse)

/-- Models Python `str.isalnum()` for a single character.  On the ASCII
range this agrees with CPython exactly; Python additionally accepts
non-ASCII Unicode letters/digits, which never include path separators or
control characters, so the sanitizer guarantees proved below hold of the
source on all inputs. -/
def pyIsAlnum (c : Char) : Bool :=
  c.isAlphanum

/-- The per-character step of the sanitizing join in `save_jpeg.worker`:
`c if c.isalnum() or c in "._- " else "_"`. -/
def sanitizeChar (c : Char) : Char :=
  if pyIsAlnum c || ['.', '_', '-', ' '].contains c then c else '_'

/-- Embeds the output-stem computation of `save_jpeg.worker`
(v7 lines 157-160, v8 lines 144-145):
`base = _basename_no_ext(src).rstrip(". ")` followed by
`safe = "".join(c if c.isalnum() or c in "._- " else "_" for c in base)`. -/
def sanitize (path : String) : String :=
  String.mk ((pyRstrip ['.', ' '] (_basename_no_ext path)).data.map sanitizeChar)

/-- Shallow model of a decoded PIL image: its mode string, its size, and
its pixels as flat lists of channel values (band order as in PIL: RGBA is
`[r, g, b, a]`, LA is `[l, a]`, RGB is `[r, g, b]`). -/
structure PILImage where
  mode : String
  size : Nat × Nat
  pixels : List (List Nat)
deriving DecidableEq, Repr

/-- PIL's fixed-point rounding division used by `Image.paste` blending:
`MULDIV255(a, b) = (t = a*b + 128; ((t >> 8) + t) >> 8)`. -/
def mulDiv255 (a b : Nat) : Nat :=
  let t := a * b + 128
  ((t >>> 8) + t) >>> 8

/-- Blend of one channel value `c` over an opaque white background with
mask value `a`, as `bg.paste(img, mask=alpha)` computes it:
`BLEND(mask, bg, im) = MULDIV255(bg, 255 - mask) + MULDIV255(im, mask)`
with `bg = 255`. -/
def blendOverWhite (c a : Nat) : Nat :=
  mulDiv255 255 (255 - a) + mulDiv255 c a

/-- The last band of a pixel, as selected by `img.split()[-1]` (the alpha
band for RGBA and LA images). -/
def alphaOf (p : List Nat) : Nat :=
  p.getLastD 0

/-- The RGB bands `paste` blends into an RGB background: for an LA pixel
the luminance is replicated across the three channels (PIL converts the
pasted image to the background's mode); for RGBA the first three bands. -/
def rgbBandsOf (mode : String) (p : List Nat) : List Nat :=
  if mode = "LA" then [p.headD 0, p.headD 0, p.headD 0]
  else p.take 3

/-- Embeds the alpha branch of `_ensure_rgb`:
`bg = Image.new("RGB", img.size, (255, 255, 255));
bg.paste(img, mask=img.split()[-1]); return bg` — an opaque white RGB
canvas of the same dimensions, each pixel blended with the alpha band as
mask. -/
def compositeWhite (img : PILImage) : PILImage :=
  { mode := "RGB"
  , size := img.size
  , pixels := img.pixels.map (fun p =>
      (rgbBandsOf img.mode p).map (fun c => blendOverWhite c (alphaOf p))) }

/-- Models `img.convert("RGB")`: the decoder's default colour-space
conversion (an external collaborator), applied per pixel; the result's
mode is `"RGB"` and its size is unchanged.  `conv` is the decoder's
per-mode pixel conversion. -/
def pilConvertRGB (conv : String → List Nat → List Nat) (img : PILImage) : PILImage :=
  { mode := "RGB", size := img.size, pixels := img.pixels.map (conv img.mode) }

/-- Embeds `_ensure_rgb` (v7 lines 70-79; v8 lines 74-81 merge the last
two tests into one `or`, with the same result): RGBA/LA composite onto
white, P converts to RGB, any other non-RGB mode converts to RGB, RGB
passes through unchanged. -/
def _ensure_rgb (conv : String → List Nat → List Nat) (img : PILImage) : PILImage :=
  if img.mode = "RGBA" ∨ img.mode = "LA" then compositeWhite img
  else if img.mode = "P" then pilConvertRGB conv img
  else if img.mode ≠ "RGB" then pilConvertRGB conv img
  else img


/-- Identity pixel conversion, a trivial instance of the decoder's
colour-space conversion oracle. -/
def convId : String → List Nat → List Nat := fun _ p => p

/-- A 2x1 RGBA image whose first pixel is fully transparent. -/
def imgRGBA : PILImage := ⟨"RGBA", (2, 1), [[10, 20, 30, 0], [1, 2, 3, 255]]⟩

/-- A 1x1 image already in RGB mode. -/
def imgRGB : PILImage := ⟨"RGB", (1, 1), [[7, 8, 9]]⟩

/-- Environment with 9 logical cores, all paths local, all operations
succeeding. -/
def envC2 : Env :=
  ⟨fun _ => true, fun _ => true, fun _ => true, fun s => some s, some 9, true⟩

/-- Environment whose `abspath` resolves everything onto a UNC share. -/
def envC2unc : Env :=
  ⟨fun _ => true, fun _ => true, fun _ => true,
   fun s => some ("\\\\srv\\" ++ s), some 9, true⟩

/-- Environment whose `abspath` always raises and whose `cpu_count` is
unavailable. -/
def envC9 : Env :=
  ⟨fun _ => true, fun _ => true, fun _ => true, fun _ => none, none, false⟩

/-- Environment in which the `import deepzoom` attempt has failed. -/
def envNoDz : Env :=
  ⟨fun _ => true, fun _ => true, fun _ => true, fun s => some s, some 8, false⟩

/-- Environment with 8 logical cores, all paths local, the backend
present and every operation succeeding. -/
def envEight : Env :=
  ⟨fun _ => true, fun _ => true, fun _ => true, fun s => some s, some 8, true⟩

/-- Environment in which the file `b` is missing and everything else
succeeds. -/
def envMix : Env :=
  ⟨fun s => !(s == "b"), fun _ => true, fun _ => true, fun s => some s, some 8, true⟩

/-! ### Shared helper lemmas -/

theorem auto_workers_v7_eq_v8 (env : Env) (files : List String) (out_dir : String) :
    _auto_workers env files out_dir = _auto_workers_v8 env files out_dir := by
  unfold _auto_workers _auto_workers_v8
  split
  · rfl
  · split
    · rfl
    · rename_i hne _
      have hlen : 1 ≤ files.length := by
        cases files with
        | nil => simp at hne
        | cons a l => simp
      omega

theorem progressUpdates_length (n : Nat) : (progressUpdates n).length = n := by
  simp [progressUpdates]

theorem progressUpdates_get (n i : Nat) (h : i < (progressUpdates n).length) :
    (progressUpdates n).get ⟨i, h⟩ = i + 1 := by
  simp [progressUpdates]

theorem progressUpdates_getLastD (n : Nat) : (progressUpdates n).getLastD 0 = n := by
  induction n with
  | zero => rfl
  | succ m ih =>
      simp [progressUpdates, List.range_succ, List.getLastD_concat]

theorem progressUpdates_mem_le (n k : Nat) (h : k ∈ progressUpdates n) : k ≤ n := by
  simp only [progressUpdates, List.mem_map, List.mem_range] at h
  obtain ⟨i, hi, rfl⟩ := h
  omega

theorem jpeg_countP_partition (env : Env) (l : List String) :
    l.countP (fun src => jpegOutcome env src == JpegOutcome.converted)
      + l.countP (fun src =>
          jpegOutcome env src == JpegOutcome.loggedSkippedMissing
            || jpegOutcome env src == JpegOutcome.loggedError)
      = l.length := by
  induction l with
  | nil => rfl
  | cons a t ih =>
      simp only [List.countP_cons, List.length_cons]
      cases h : jpegOutcome env a <;> simp [h, ih] <;> omega

theorem dz_countP_partition (env : Env) (l : List String) :
    l.countP (fun src => dzOutcome env src == DzOutcome.ok)
      + l.countP (fun src => dzOutcome env src == DzOutcome.skip)
      + l.countP (fun src => dzOutcome env src == DzOutcome.err)
      = l.length := by
  induction l with
  | nil => rfl
  | cons a t ih =>
      simp only [List.countP_cons, List.length_cons]
      cases h : dzOutcome env a <;> simp [h, ih] <;> omega

theorem isAlphanum_ranges (c : Char) (h : c.isAlphanum = true) :
    (48 ≤ c.toNat ∧ c.toNat ≤ 57) ∨ (65 ≤ c.toNat ∧ c.toNat ≤ 90)
      ∨ (97 ≤ c.toNat ∧ c.toNat ≤ 122) := by
  simp only [Char.isAlphanum, Char.isAlpha, Char.isDigit, Char.isUpper, Char.isLower,
    Bool.or_eq_true, Bool.and_eq_true, decide_eq_true_eq] at h
  rcases h with (⟨h1, h2⟩ | ⟨h1, h2⟩) | ⟨h1, h2⟩
  · right; left; exact ⟨h1, h2⟩
  · right; right; exact ⟨h1, h2⟩
  · left; exact ⟨h1, h2⟩

/-! ### Claim theorems -/

/-- C2: the worker-count selector returns 1 when the file list is empty,
returns exactly 1 when the output directory or any input file is a UNC
path, and otherwise returns `max(1, min(len(files), cores // 2))` where
`cores` is the available logical core count; the result is always at
least 1 and never exceeds `len(files)` for non-empty lists.  The v7 and
v8 selectors agree on all inputs. -/
theorem auto_workers_spec (env : Env) (files : List String) (out_dir : String) :
    (files = [] → _auto_workers env files out_dir = 1)
  ∧ ((_is_unc env out_dir || files.any fun f => _is_unc env f) = true →
      _auto_workers env files out_dir = 1)
  ∧ (∀ cores, env.cpuCount = some cores → files ≠ [] →
      (_is_unc env out_dir || files.any fun f => _is_unc env f) = false →
      _auto_workers env files out_dir = max 1 (min files.length (cores / 2)))
  ∧ 1 ≤ _auto_workers env files out_dir
  ∧ (files ≠ [] → _auto_workers env files out_dir ≤ files.length)
  ∧ _auto_workers env files out_dir = _auto_workers_v8 env files out_dir := by
  refine ⟨?_, ?_, ?_, ?_, ?_, auto_workers_v7_eq_v8 env files out_dir⟩
  · intro h
    simp [_auto_workers, h]
  · intro h
    unfold _auto_workers
    split
    · rfl
    · simp [h]
  · intro cores hc hne hunc
    have he : files.isEmpty = false := by
      cases files with
      | nil => exact absurd rfl hne
      | cons a t => rfl
    have hlen : 1 ≤ files.length := by
      cases files with
      | nil => exact absurd rfl hne
      | cons a t => simp
    simp only [_auto_workers, he, hunc, hc, Option.getD_some, Bool.false_eq_true,
      if_false]
    omega
  · unfold _auto_workers
    split
    · omega
    · split
      · omega
      · rename_i hne _
        have hlen : 1 ≤ files.length := by
          cases files with
          | nil => simp at hne
          | cons a t => simp
        omega
  · intro hne
    have hlen : 1 ≤ files.length := by
      cases files with
      | nil => exact absurd rfl hne
      | cons a t => simp
    unfold _auto_workers
    split
    · omega
    · split
      · omega
      · omega

/-- Witness for C2: concrete evaluations of the three branches and the
bounds of the worker-count selector. -/
theorem auto_workers_spec_witness :
    _auto_workers envC2 [] "out" = 1
  ∧ _auto_workers envC2unc ["f.tif"] "out" = 1
  ∧ _auto_workers envC2 ["a", "b", "c", "d", "e", "f"] "out" = 4
  ∧ 1 ≤ _auto_workers envC2 ["a"] "out"
  ∧ _auto_workers envC2 ["a"] "out" ≤ 1 := by
  refine ⟨(auto_workers_spec envC2 [] "out").1 rfl,
          (auto_workers_spec envC2unc ["f.tif"] "out").2.1 (by decide),
          ?_,
          (auto_workers_spec envC2 ["a"] "out").2.2.2.1,
          (auto_workers_spec envC2 ["a"] "out").2.2.2.2.1 (by decide)⟩
  have h := (auto_workers_spec envC2 ["a", "b", "c", "d", "e", "f"] "out").2.2.1
    9 rfl (by decide) (by decide)
  simpa using h

/-- C9: the path classifier never raises (it is a total function in this
embedding) and classifies any path whose resolution to absolute form
fails as non-network. -/
theorem is_unc_fail_open (env : Env) (p : String) (h : env.abspath p = none) :
    _is_unc env p = false := by
  simp [_is_unc, h]

/-- Witness for C9: a malformed path whose resolution fails is classified
as local. -/
theorem is_unc_fail_open_witness : _is_unc envC9 ":::bad:::" = false :=
  is_unc_fail_open envC9 ":::bad:::" rfl

/-- C10: when `os.cpu_count()` reports nothing the selector behaves
exactly as with 4 cores, and for every non-empty, non-UNC file list it
returns `max(1, min(len(files), 2))`. -/
theorem auto_workers_no_cpu_count (env : Env) (files : List String) (out_dir : String)
    (h : env.cpuCount = none) :
    _auto_workers env files out_dir
        = _auto_workers { env with cpuCount := some 4 } files out_dir
  ∧ (files ≠ [] →
      (_is_unc env out_dir || files.any fun f => _is_unc env f) = false →
      _auto_workers env files out_dir = max 1 (min files.length 2)) := by
  constructor
  · simp [_auto_workers, _is_unc, h]
  · intro hne hunc
    have he : files.isEmpty = false := by
      cases files with
      | nil => exact absurd rfl hne
      | cons a t => rfl
    have hlen : 1 ≤ files.length := by
      cases files with
      | nil => exact absurd rfl hne
      | cons a t => simp
    simp only [_auto_workers, he, hunc, h, Option.getD_none, Bool.false_eq_true,
      if_false]
    omega

/-- Witness for C10: with `cpu_count` unavailable and three local files
the selector yields 2, as with exactly 4 cores. -/
theorem auto_workers_no_cpu_count_witness :
    _auto_workers envC9 ["a", "b", "c"] "out"
        = _auto_workers { envC9 with cpuCount := some 4 } ["a", "b", "c"] "out"
  ∧ _auto_workers envC9 ["a", "b", "c"] "out" = max 1 (min 3 2) := by
  have h := auto_workers_no_cpu_count envC9 ["a", "b", "c"] "out" rfl
  exact ⟨h.1, by simpa using h.2 (by decide) (by decide)⟩

/-- C4: when the DeepZoom backend is unavailable, `create_deepzoom`
(both versions) shows the single capability-missing dialog and returns
before submitting any job: zero jobs run, no tally is produced, no pool
is created, and the progress state is left at its prior values. -/
theorem deepzoom_capability_missing (env : Env) (files : List String)
    (out_dir : String) (st : ProgressState) (h : env.hasDeepzoom = false) :
    create_deepzoom env files out_dir st
        = { finalState := st, jobsRun := 0, capabilityErrorShown := true
          , tally := none, fileJobWorkers := none }
  ∧ create_deepzoom_v8 env files out_dir st = (st, 0, true, none, none) := by
  constructor <;> simp [create_deepzoom, create_deepzoom_v8, h]

/-- Witness for C4: a concrete DeepZoom invocation without the backend
changes nothing and runs no job. -/
theorem deepzoom_capability_missing_witness :
    create_deepzoom envNoDz ["a.jpg"] "out" ⟨3, 7⟩
        = { finalState := ⟨3, 7⟩, jobsRun := 0, capabilityErrorShown := true
          , tally := none, fileJobWorkers := none }
  ∧ create_deepzoom_v8 envNoDz ["a.jpg"] "out" ⟨3, 7⟩ = (⟨3, 7⟩, 0, true, none, none) :=
  deepzoom_capability_missing envNoDz ["a.jpg"] "out" ⟨3, 7⟩ rfl

/-- Counterexample to C5: with 8 cores and four local files the
worker-count selector returns 4, but v8's DeepZoom batch executes its
per-file jobs on a single worker slot (its sequential loop runs inside
`ThreadPoolExecutor(max_workers=1)` and `_auto_workers` is never
called), so the DeepZoom pool size is not the selector's value. -/
theorem deepzoom_pool_not_selector_in_v8 :
    _auto_workers envEight ["a", "b", "c", "d"] "out" = 4
  ∧ (create_deepzoom_v8 envEight ["a", "b", "c", "d"] "out" ⟨0, 100⟩).2.2.2.2 = some 1 := by
  constructor
  · decide
  · decide

/-- C5 (amended): in both versions the JPEG batch uses exactly one
concurrent task slot, processes files sequentially in selection order and
never consults the worker-count selector (its outcome depends only on the
filesystem and encode oracles); v7's DeepZoom batch parallelizes across a
pool sized by the selector, while v8's DeepZoom batch also runs its
per-file jobs on a single worker slot. -/
theorem jpeg_serialized_deepzoom_pools (env env2 : Env) (files : List String)
    (out_dir : String) (st : ProgressState)
    (hfe : env.fileExists = env2.fileExists) (hok : env.jpegSaveOk = env2.jpegSaveOk) :
    (save_jpeg_worker env files).fileJobWorkers = 1
  ∧ save_jpeg_worker env files = save_jpeg_worker env2 files
  ∧ (env.hasDeepzoom = true → files ≠ [] → out_dir ≠ "" →
      (create_deepzoom env files out_dir st).fileJobWorkers
          = some (_auto_workers env files out_dir)
      ∧ (create_deepzoom_v8 env files out_dir st).2.2.2.2 = some 1) := by
  refine ⟨rfl, ?_, ?_⟩
  · simp [save_jpeg_worker, jpegOutcome, hfe, hok]
  · intro h hne hod
    have he : files.isEmpty = false := by
      cases files with
      | nil => exact absurd rfl hne
      | cons a t => rfl
    constructor <;> simp [create_deepzoom, create_deepzoom_v8, h, he, hod]

/-- Witness for C5 (amended): concrete pool sizes for a four-file batch
in an 8-core environment. -/
theorem jpeg_serialized_deepzoom_pools_witness :
    (save_jpeg_worker envEight ["a", "b", "c", "d"]).fileJobWorkers = 1
  ∧ save_jpeg_worker envEight ["a", "b", "c", "d"]
      = save_jpeg_worker envEight ["a", "b", "c", "d"]
  ∧ (create_deepzoom envEight ["a", "b", "c", "d"] "out" ⟨0, 100⟩).fileJobWorkers
      = some (_auto_workers envEight ["a", "b", "c", "d"] "out")
  ∧ (create_deepzoom_v8 envEight ["a", "b", "c", "d"] "out" ⟨0, 100⟩).2.2.2.2 = some 1 := by
  have h := jpeg_serialized_deepzoom_pools envEight envEight ["a", "b", "c", "d"]
    "out" ⟨0, 100⟩ rfl rfl
  have h3 := h.2.2 rfl (by decide) (by decide)
  exact ⟨h.1, h.2.1, h3.1, h3.2⟩

/-- C1: for every batch run over a submitted list of length `n`, the
JPEG tally satisfies `converted + errors = n` (skipped is folded into
errors there), the v7 DeepZoom tally satisfies
`created + skipped + errors = n` for any completion order, and the
progress counter receives exactly one update per completed job, each
update is the predecessor plus one, no update exceeds the maximum `n`,
and the final value is `n`. -/
theorem batch_tally_invariant (env : Env) (files order : List String)
    (hperm : order.Perm files) :
    (save_jpeg_worker env files).converted + (save_jpeg_worker env files).errors
        = files.length
  ∧ (run_parallel_tally env order).created + (run_parallel_tally env order).skipped
        + (run_parallel_tally env order).errors = files.length
  ∧ (save_jpeg_worker env files).progressTrace.getLastD 0 = files.length
  ∧ (run_parallel_tally env order).progressTrace.getLastD 0 = files.length
  ∧ (save_jpeg_worker env files).progressTrace.length = files.length
  ∧ (run_parallel_tally env order).progressTrace.length = files.length
  ∧ (∀ k ∈ (save_jpeg_worker env files).progressTrace, k ≤ files.length)
  ∧ (∀ k ∈ (run_parallel_tally env order).progressTrace, k ≤ files.length)
  ∧ (∀ i, ∀ h : i < (save_jpeg_worker env files).progressTrace.length,
      (save_jpeg_worker env files).progressTrace.get ⟨i, h⟩ = i + 1)
  ∧ (∀ i, ∀ h : i < (run_parallel_tally env order).progressTrace.length,
      (run_parallel_tally env order).progressTrace.get ⟨i, h⟩ = i + 1) := by
  have hlen := hperm.length_eq
  refine ⟨jpeg_countP_partition env files, ?_, ?_, ?_, ?_, ?_, ?_, ?_, ?_, ?_⟩
  · rw [← hlen]
    exact dz_countP_partition env order
  · exact progressUpdates_getLastD files.length
  · show (progressUpdates order.length).getLastD 0 = files.length
    rw [progressUpdates_getLastD, hlen]
  · exact progressUpdates_length files.length
  · show (progressUpdates order.length).length = files.length
    rw [progressUpdates_length, hlen]
  · intro k hk
    exact progressUpdates_mem_le files.length k hk
  · intro k hk
    have := progressUpdates_mem_le order.length k hk
    omega
  · intro i h
    exact progressUpdates_get files.length i h
  · intro i h
    exact progressUpdates_get order.length i h

/-- Witness for C1: a two-file batch (one file missing) tallied in
reversed completion order. -/
theorem batch_tally_invariant_witness :
    (save_jpeg_worker envMix ["a", "b"]).converted
        + (save_jpeg_worker envMix ["a", "b"]).errors = 2
  ∧ (run_parallel_tally envMix ["b", "a"]).created
        + (run_parallel_tally envMix ["b", "a"]).skipped
        + (run_parallel_tally envMix ["b", "a"]).errors = 2
  ∧ (save_jpeg_worker envMix ["a", "b"]).progressTrace.getLastD 0 = 2
  ∧ (run_parallel_tally envMix ["b", "a"]).progressTrace.getLastD 0 = 2
  ∧ (save_jpeg_worker envMix ["a", "b"]).progressTrace.length = 2
  ∧ (run_parallel_tally envMix ["b", "a"]).progressTrace.length = 2 := by
  have h := batch_tally_invariant envMix ["a", "b"] ["b", "a"] (by decide)
  exact ⟨h.1, h.2.1, h.2.2.1, h.2.2.2.1, h.2.2.2.2.1, h.2.2.2.2.2.1⟩

theorem jpeg_errors_split (env : Env) (l : List String) :
    l.countP (fun src =>
        jpegOutcome env src == JpegOutcome.loggedSkippedMissing
          || jpegOutcome env src == JpegOutcome.loggedError)
      = l.countP (fun src => !env.fileExists src)
        + l.countP (fun src => env.fileExists src && !env.jpegSaveOk src) := by
  induction l with
  | nil => rfl
  | cons a t ih =>
      simp only [List.countP_cons, ih]
      cases h1 : env.fileExists a <;> cases h2 : env.jpegSaveOk a <;>
        simp [jpegOutcome, h1, h2] <;> omega

theorem jpeg_converted_split (env : Env) (l : List String) :
    l.countP (fun src => jpegOutcome env src == JpegOutcome.converted)
      = l.countP (fun src => env.fileExists src && env.jpegSaveOk src) := by
  induction l with
  | nil => rfl
  | cons a t ih =>
      simp only [List.countP_cons, ih]
      cases h1 : env.fileExists a <;> cases h2 : env.jpegSaveOk a <;>
        simp [jpegOutcome, h1, h2]

theorem dz_skipped_split (env : Env) (l : List String) :
    l.countP (fun src => dzOutcome env src == DzOutcome.skip)
      = l.countP (fun src => !env.fileExists src) := by
  induction l with
  | nil => rfl
  | cons a t ih =>
      simp only [List.countP_cons, ih]
      cases h1 : env.fileExists a <;> cases h2 : env.dzCreateOk a <;>
        simp [dzOutcome, h1, h2]

theorem dz_errors_split (env : Env) (l : List String) :
    l.countP (fun src => dzOutcome env src == DzOutcome.err)
      = l.countP (fun src => env.fileExists src && !env.dzCreateOk src) := by
  induction l with
  | nil => rfl
  | cons a t ih =>
      simp only [List.countP_cons, ih]
      cases h1 : env.fileExists a <;> cases h2 : env.dzCreateOk a <;>
        simp [dzOutcome, h1, h2]

theorem dz_created_split (env : Env) (l : List String) :
    l.countP (fun src => dzOutcome env src == DzOutcome.ok)
      = l.countP (fun src => env.fileExists src && env.dzCreateOk src) := by
  induction l with
  | nil => rfl
  | cons a t ih =>
      simp only [List.countP_cons, ih]
      cases h1 : env.fileExists a <;> cases h2 : env.dzCreateOk a <;>
        simp [dzOutcome, h1, h2]

/-- C3: for every environment and input list, the JPEG path counts
missing sources in the same `errors` counter as genuine decode/encode
failures (only converting files that exist and encode successfully),
whereas v7's DeepZoom path keeps a `skipped` counter for missing sources
that is distinct from its `errors` counter for genuine failures. -/
theorem missing_file_counter_asymmetry (env : Env) (files : List String) :
    (save_jpeg_worker env files).errors
        = files.countP (fun src => !env.fileExists src)
          + files.countP (fun src => env.fileExists src && !env.jpegSaveOk src)
  ∧ (save_jpeg_worker env files).converted
        = files.countP (fun src => env.fileExists src && env.jpegSaveOk src)
  ∧ (run_parallel_tally env files).skipped
        = files.countP (fun src => !env.fileExists src)
  ∧ (run_parallel_tally env files).errors
        = files.countP (fun src => env.fileExists src && !env.dzCreateOk src)
  ∧ (run_parallel_tally env files).created
        = files.countP (fun src => env.fileExists src && env.dzCreateOk src) :=
  ⟨jpeg_errors_split env files, jpeg_converted_split env files,
   dz_skipped_split env files, dz_errors_split env files,
   dz_created_split env files⟩

theorem blendOverWhite_zero (c : Nat) : blendOverWhite c 0 = 255 := by
  unfold blendOverWhite mulDiv255
  simp [Nat.shiftRight_eq_div_pow]

/-- C6: the format normalizer composites RGBA/LA images onto an opaque
white canvas of the same dimensions with the alpha band as blend mask
(a fully transparent pixel becomes white), expands palette images to
RGB, converts any other non-RGB mode to RGB, and passes an RGB image
through unchanged. -/
theorem ensure_rgb_policy (conv : String → List Nat → List Nat) (img : PILImage) :
    ((img.mode = "RGBA" ∨ img.mode = "LA") → _ensure_rgb conv img = compositeWhite img)
  ∧ (compositeWhite img).mode = "RGB"
  ∧ (compositeWhite img).size = img.size
  ∧ ((img.mode = "RGBA" ∨ img.mode = "LA") →
      ∀ (i : Nat) (p : List Nat), img.pixels[i]? = some p →
      alphaOf p = 0 →
      (_ensure_rgb conv img).pixels[i]?
        = some (List.replicate (rgbBandsOf img.mode p).length 255))
  ∧ (img.mode = "P" → _ensure_rgb conv img = pilConvertRGB conv img)
  ∧ (img.mode ≠ "RGBA" → img.mode ≠ "LA" → img.mode ≠ "P" → img.mode ≠ "RGB" →
      _ensure_rgb conv img = pilConvertRGB conv img)
  ∧ (img.mode = "RGB" → _ensure_rgb conv img = img) := by
  have halpha : (img.mode = "RGBA" ∨ img.mode = "LA") →
      _ensure_rgb conv img = compositeWhite img := by
    intro h
    simp [_ensure_rgb, h]
  refine ⟨halpha, rfl, rfl, ?_, ?_, ?_, ?_⟩
  · intro h i p hp ha
    rw [halpha h]
    simp only [compositeWhite, List.getElem?_map, hp, Option.map_some']
    rw [ha]
    simp [blendOverWhite_zero, List.map_const']
  · intro h
    simp [_ensure_rgb, h]
  · intro h1 h2 h3 h4
    simp [_ensure_rgb, h1, h2, h3, h4]
  · intro h
    simp [_ensure_rgb, h]

/-- Witness for C6: a concrete RGBA image with a fully transparent first
pixel composites onto white (that pixel becomes pure white), and a
concrete RGB image passes through unchanged. -/
theorem ensure_rgb_policy_witness :
    _ensure_rgb convId imgRGBA = compositeWhite imgRGBA
  ∧ (_ensure_rgb convId imgRGBA).pixels[0]? = some [255, 255, 255]
  ∧ _ensure_rgb convId imgRGB = imgRGB := by
  have h := ensure_rgb_policy convId imgRGBA
  have h2 := ensure_rgb_policy convId imgRGB
  refine ⟨h.1 (Or.inl rfl), ?_, h2.2.2.2.2.2.2 rfl⟩
  have h4 := h.2.2.2.1 (Or.inl rfl) 0 [10, 20, 30, 0] rfl rfl
  simpa [imgRGBA, rgbBandsOf] using h4

theorem good_of_ranges (c : Char)
    (hr : (48 ≤ c.toNat ∧ c.toNat ≤ 57) ∨ (65 ≤ c.toNat ∧ c.toNat ≤ 90)
        ∨ (97 ≤ c.toNat ∧ c.toNat ≤ 122)) :
    c ≠ '/' ∧ c ≠ '\\' ∧ 32 ≤ c.toNat ∧ c.toNat ≠ 127 := by
  have h1 : c.toNat ≠ 47 ∧ c.toNat ≠ 92 ∧ 32 ≤ c.toNat ∧ c.toNat ≠ 127 := by
    rcases hr with h | h | h <;> omega
  refine ⟨fun he => ?_, fun he => ?_, h1.2.2.1, h1.2.2.2⟩
  · subst he
    exact absurd rfl h1.1
  · subst he
    exact absurd rfl h1.2.1

/-- C7: every character of the sanitized output stem is either kept
(being alphanumeric or one of `.`, `_`, `-`, space) or replaced by `_`,
so for any input path the output contains no `/`, no `\`, and no control
character (code below 32 or 127). -/
theorem sanitize_no_bad_chars (p : String) (c : Char) (h : c ∈ (sanitize p).data) :
    c ≠ '/' ∧ c ≠ '\\' ∧ 32 ≤ c.toNat ∧ c.toNat ≠ 127 := by
  simp only [sanitize, List.mem_map] at h
  obtain ⟨c0, _, rfl⟩ := h
  unfold sanitizeChar
  split
  · rename_i hk
    cases (Bool.or_eq_true _ _).mp hk with
    | inl ha => exact good_of_ranges c0 (isAlphanum_ranges c0 ha)
    | inr hm =>
        have hmem : c0 = '.' ∨ c0 = '_' ∨ c0 = '-' ∨ c0 = ' ' := by
          simpa using hm
        rcases hmem with rfl | rfl | rfl | rfl <;> decide
  · decide

/-- Witness for C7: the character kept from sanitizing the path
`ab<cd` is neither a separator nor a control character. -/
theorem sanitize_no_bad_chars_witness :
    'a' ≠ '/' ∧ 'a' ≠ '\\' ∧ 32 ≤ 'a'.toNat ∧ 'a'.toNat ≠ 127 :=
  sanitize_no_bad_chars "ab<cd" 'a' (by decide)

/-- Counterexample to C8: the path `"."` has a non-empty basename (its
basename is `"."` itself, kept whole by the extension split), yet
stripping trailing periods and spaces leaves nothing, so the sanitized
output stem is empty. -/
theorem sanitize_empty_on_dot_path :
    basename "." ≠ "" ∧ _basename_no_ext "." ≠ "" ∧ sanitize "." = "" := by
  refine ⟨?_, ?_, ?_⟩ <;> decide

/-- C8 (amended): the sanitized output stem is non-empty whenever the
extension-stripped basename contains at least one character other than
`.` and space (rather than whenever the basename is non-empty), and
sanitization is a deterministic pure function of the input path. -/
theorem sanitize_nonempty_of_content (p : String) (c : Char)
    (hc : c ∈ (_basename_no_ext p).data) (h1 : c ≠ '.') (h2 : c ≠ ' ') :
    sanitize p ≠ "" ∧ ∀ q : String, q = p → sanitize q = sanitize p := by
  refine ⟨?_, fun q hq => by rw [hq]⟩
  intro hemp
  have hmap : ((pyRstrip ['.', ' '] (_basename_no_ext p)).data.map sanitizeChar) = [] :=
    congrArg String.data hemp
  have hnil : (pyRstrip ['.', ' '] (_basename_no_ext p)).data = [] :=
    List.map_eq_nil_iff.mp hmap
  have hdrop : ((_basename_no_ext p).data.reverse.dropWhile
      (fun c => ['.', ' '].contains c)).reverse = [] := hnil
  have hall : ∀ x ∈ (_basename_no_ext p).data, x = '.' ∨ x = ' ' := by
    simpa using congrArg List.reverse hdrop
  rcases hall c hc with hcq | hcq
  · exact h1 hcq
  · exact h2 hcq

/-- Witness for C8 (amended): the path `a.tif` has stem content beyond
periods and spaces, and its sanitized stem is non-empty. -/
theorem sanitize_nonempty_of_content_witness : sanitize "a.tif" ≠ "" :=
  (sanitize_nonempty_of_content "a.tif" 'a' (by decide) (by decide) (by decide)).1
